import Mathlib

/-!
Shallow embedding of the FLUX payment agent (agent/PaymentAgent.ts and
agent/config.ts) for verifying its natural-language specification.

External collaborators (the ethers contract client and the webhook
transport) are modelled as oracles: records of the outcomes that each
external call performed by one operation would return. The agent logic
itself (retry queue management, the processing guard, the dispatch
decision, failure handling) is translated statement by statement from the
TypeScript source. An async function that finishes normally is said to
resolve; one that throws past its own try/catch blocks is said to reject,
recorded in an outcome field (none = resolved, some e = rejected with e).
-/

namespace FluxAgent

/-- Error taxonomy for external calls (spec section 7): gateway read
failures, submission failures, confirmation failures. Notification
delivery failures never influence control flow because sendWebhook
swallows them inside its own try/catch, so they need no constructor. -/
inductive Err
  | gateway
  | submission
  | confirmation
deriving DecidableEq, Repr

/-- Record returned by payrollContract.recurringPayments: amounts in wei,
times in integer seconds since epoch. -/
structure PaymentRecord where
  recipient : String
  amount : Nat
  interval : Nat
  lastPayment : Nat
  isActive : Bool
deriving DecidableEq, Repr

/-- Type tag of a webhook notification event. -/
inductive EventType
  | info
  | success
  | warning
  | error
deriving DecidableEq, Repr

/-- Webhook notification event: type tag, title string as it appears in
the source, and the payment identifier it concerns (none for wallet-wide
or batch-wide events). -/
structure Event where
  etype : EventType
  title : String
  pid : Option String
deriving DecidableEq, Repr

/-- Trace entry for one external gateway call, named after the contract or
provider method invoked in PaymentAgent.ts. -/
inductive Call
  | getActivePaymentIds
  | canProcessPayment (pid : String)
  | recurringPayments (pid : String)
  | processRecurringPayment (pid : String)
  | processMultiplePayments (pids : List String)
  | getBalance
  | getContractBalance
deriving DecidableEq, Repr

/-- Model of agent/config.ts. The webhookUrl is the raw string, empty when
the WEBHOOK_URL environment variable is unset; the agent branches on its
truthiness. The lowBalanceThreshold is modelled as the wei value that
ethers.parseEther produces from the configured decimal string, and
gasLimitBuffer (a float, default 1.2, never read by the agent) in tenths. -/
structure Config where
  rpcUrl : Option String
  payrollContractAddress : String
  privateKey : String
  webhookUrl : String
  lowBalanceThreshold : Nat
  checkInterval : Nat
  retryLimit : Nat
  gasLimitBuffer : Nat
  batchProcessingThreshold : Nat
deriving DecidableEq, Repr

/-- Hard-coded retry ceiling of PaymentAgent: private MAX_RETRIES = 3. -/
def MAX_RETRIES : Nat := 3

/-- The retryQueue field, a JavaScript Map from payment identifier (string
form) to retry count, modelled as an association list with unique keys in
insertion order. -/
abbrev RetryQueue := List (String × Nat)

/-- Map.get: first binding of the key, if any. -/
def rqGet : RetryQueue → String → Option Nat
  | [], _ => none
  | (k1, v) :: rest, k => if k1 = k then some v else rqGet rest k

/-- Map.set: update the first binding of the key in place, else append. -/
def rqSet : RetryQueue → String → Nat → RetryQueue
  | [], k, v => [(k, v)]
  | (k1, v1) :: rest, k, v =>
      if k1 = k then (k1, v) :: rest else (k1, v1) :: rqSet rest k v

/-- Map.delete: remove the bindings of the key. -/
def rqDelete : RetryQueue → String → RetryQueue
  | [], _ => []
  | (k1, v1) :: rest, k =>
      if k1 = k then rqDelete rest k else (k1, v1) :: rqDelete rest k

/-- Mutable state of the PaymentAgent instance: the retry queue and the
isProcessing guard flag. -/
structure AgentState where
  retryQueue : RetryQueue
  isProcessing : Bool
deriving DecidableEq, Repr

/-- Result of one agent operation: the retry queue afterwards, the webhook
events emitted, the gateway calls made, and whether the returned promise
resolved (none) or rejected with an error (some e). -/
structure OpResult where
  queue : RetryQueue
  events : List Event
  calls : List Call
  outcome : Option Err
deriving DecidableEq, Repr

/-- Result of one scan tick, which also carries the guard flag. -/
structure TickResult where
  state : AgentState
  events : List Event
  calls : List Call
deriving DecidableEq, Repr

/-- Emission of one webhook event, guarded by the truthiness test
if (config.webhookUrl) that precedes every sendWebhook call site. -/
def emitIf (w : String) (e : Event) : List Event :=
  if w = "" then [] else [e]

/-- Outcomes of the external calls one processSinglePayment invocation can
make: the recurringPayments detail read before submission, the
processRecurringPayment submission together with its confirmation wait
(collapsed into one outcome because the code treats their failures
identically), and the second recurringPayments read performed inside the
catch block when building the terminal failure notification. -/
structure SingleOracle where
  detailRead : Except Err PaymentRecord
  submit : Except Err String
  failDetailRead : Except Err PaymentRecord

/-- Catch block of processSinglePayment (PaymentAgent.ts lines 193-219):
read the current retry count with absent read as 0, increment while below
MAX_RETRIES, otherwise, when a webhook is configured, fetch the payment
details again for the terminal error notification. That fetch happens
inside the catch block, so its own failure escapes the function. -/
def processSingleFailure (w : String) (o : SingleOracle) (pid : String)
    (q : RetryQueue) (evs : List Event) (cs : List Call) : OpResult :=
  let currentRetries := (rqGet q pid).getD 0
  if currentRetries < MAX_RETRIES then
    ⟨rqSet q pid (currentRetries + 1), evs, cs, none⟩
  else if w = "" then
    ⟨q, evs, cs, none⟩
  else
    match o.failDetailRead with
    | .error e => ⟨q, evs, cs ++ [.recurringPayments pid], some e⟩
    | .ok _ =>
        ⟨q, evs ++ [⟨.error, "Payment Failed", some pid⟩],
          cs ++ [.recurringPayments pid], none⟩

/-- Model of processSinglePayment (PaymentAgent.ts lines 146-220). The
info and success notifications are emitted only when a webhook is
configured; on success the identifier is deleted from the retry queue; any
error from the detail read or the submission is handled by
processSingleFailure. -/
def processSinglePayment (cfg : Config) (o : SingleOracle) (pid : String)
    (q : RetryQueue) : OpResult :=
  match o.detailRead with
  | .error _ => processSingleFailure cfg.webhookUrl o pid q [] [.recurringPayments pid]
  | .ok _ =>
    let evs := emitIf cfg.webhookUrl ⟨.info, "Processing Payment", some pid⟩
    match o.submit with
    | .error _ =>
        processSingleFailure cfg.webhookUrl o pid q evs
          [.recurringPayments pid, .processRecurringPayment pid]
    | .ok _ =>
        ⟨rqDelete q pid,
          evs ++ emitIf cfg.webhookUrl ⟨.success, "Payment Successful", some pid⟩,
          [.recurringPayments pid, .processRecurringPayment pid], none⟩

/-- Sequential for-of loop awaiting processSinglePayment on each id, as in
the individual dispatch branch (lines 131-133) and the batch fallback
(lines 261-263). A rejection from one iteration aborts the loop and the
enclosing function rejects with that error. -/
def processEachSingle (cfg : Config) (so : String → SingleOracle) :
    List String → RetryQueue → OpResult
  | [], q => ⟨q, [], [], none⟩
  | pid :: rest, q =>
    let r := processSinglePayment cfg (so pid) pid q
    match r.outcome with
    | some e => ⟨r.queue, r.events, r.calls, some e⟩
    | none =>
      let r2 := processEachSingle cfg so rest r.queue
      ⟨r2.queue, r.events ++ r2.events, r.calls ++ r2.calls, r2.outcome⟩

/-- Outcomes of the external calls one processBatchPayments invocation can
make: the processMultiplePayments submission with its confirmation wait,
and, for the fallback, the per-identifier single-payment outcomes. -/
structure BatchOracle where
  batchSubmit : Except Err String
  single : String → SingleOracle

/-- Model of processBatchPayments (PaymentAgent.ts lines 225-265). On
success all identifiers are deleted from the retry queue; on any batch
error the function falls back to the sequential single-payment loop
without re-raising the batch error. -/
def processBatchPayments (cfg : Config) (o : BatchOracle) (pids : List String)
    (q : RetryQueue) : OpResult :=
  match o.batchSubmit with
  | .ok _ =>
      ⟨pids.foldl (fun acc pid => rqDelete acc pid) q,
        emitIf cfg.webhookUrl ⟨.success, "Batch Payments Processed", none⟩,
        [.processMultiplePayments pids], none⟩
  | .error _ =>
      let r := processEachSingle cfg o.single pids q
      ⟨r.queue, r.events, .processMultiplePayments pids :: r.calls, r.outcome⟩

/-- Diagnostic classification of a payment the eligibility check rejected
(PaymentAgent.ts lines 92-114): inactive, not yet due together with the
remaining seconds the log reports, or blocked (active and due by timing
yet ineligible, which the code attributes to insufficient balance). -/
inductive NonProcReason
  | inactive
  | notDueYet (remaining : Nat)
  | blocked
deriving DecidableEq, Repr

/-- The branch structure of lines 96-102: inactive first, then the timing
test now < lastPayment + interval with Nat subtraction for the remaining
seconds, else blocked. -/
def classifyNonProcessable (p : PaymentRecord) (now : Nat) : NonProcReason :=
  if !p.isActive then .inactive
  else if now < p.lastPayment + p.interval then
    .notDueYet (p.lastPayment + p.interval - now)
  else .blocked

/-- Due-by-timing predicate: active and now at least lastPayment plus
interval, in integer seconds. For active payments this is the exact
complement of the not-due test now < nextPaymentTime of line 98. -/
def isDue (p : PaymentRecord) (now : Nat) : Bool :=
  p.isActive && decide (p.lastPayment + p.interval ≤ now)

/-- Outcomes of the external calls one checkAndProcessPayments tick can
make: the active-id listing, the per-id eligibility checks and detail
reads, the clock reading, and the dispatch outcomes. -/
structure ScanOracle where
  activeIds : Except Err (List String)
  canProcess : String → Except Err Bool
  detailRead : String → Except Err PaymentRecord
  now : Nat
  batchSubmit : Except Err String
  single : String → SingleOracle

/-- One iteration of the scan loop (lines 85-119): eligibility check, and
for ineligible payments a detail read and diagnostic classification, with
a low-balance warning for blocked payments when a webhook is configured.
A read error is caught by the per-payment catch and excludes the payment
from this tick. Returns whether the payment is processable, the events
emitted and the calls made. -/
def scanOne (cfg : Config) (o : ScanOracle) (pid : String) :
    Bool × List Event × List Call :=
  match o.canProcess pid with
  | .error _ => (false, [], [.canProcessPayment pid])
  | .ok true => (true, [], [.canProcessPayment pid])
  | .ok false =>
    match o.detailRead pid with
    | .error _ => (false, [], [.canProcessPayment pid, .recurringPayments pid])
    | .ok p =>
      match classifyNonProcessable p o.now with
      | .blocked =>
          (false,
            if cfg.webhookUrl ≠ "" ∧ p.lastPayment + p.interval ≤ o.now then
              [⟨.warning, "Low Balance Alert", some pid⟩]
            else [],
            [.canProcessPayment pid, .recurringPayments pid])
      | _ => (false, [], [.canProcessPayment pid, .recurringPayments pid])

/-- The whole scan loop: partition the active ids, keeping source order of
the processable ones, and concatenate events and calls. -/
def scanAll (cfg : Config) (o : ScanOracle) :
    List String → List String × List Event × List Call
  | [] => ([], [], [])
  | pid :: rest =>
    let r := scanOne cfg o pid
    let r2 := scanAll cfg o rest
    ((if r.1 then [pid] else []) ++ r2.1, r.2.1 ++ r2.2.1, r.2.2 ++ r2.2.2)

/-- Model of checkAndProcessPayments (PaymentAgent.ts lines 63-141). If
the isProcessing guard is set the tick returns immediately with no calls;
otherwise the guard is held for the body, whose errors are all caught by
the outer catch, and the finally block clears the guard on every exit
path, including the early return on an empty active list. More than 3
processable payments dispatch as one batch, otherwise individually. -/
def checkAndProcessPayments (cfg : Config) (o : ScanOracle) (s : AgentState) :
    TickResult :=
  if s.isProcessing then ⟨s, [], []⟩
  else
    match o.activeIds with
    | .error _ => ⟨⟨s.retryQueue, false⟩, [], [.getActivePaymentIds]⟩
    | .ok ids =>
      if ids.isEmpty then ⟨⟨s.retryQueue, false⟩, [], [.getActivePaymentIds]⟩
      else
        let r := scanAll cfg o ids
        if r.1.isEmpty then
          ⟨⟨s.retryQueue, false⟩, r.2.1, .getActivePaymentIds :: r.2.2⟩
        else if r.1.length > 3 then
          let rb := processBatchPayments cfg ⟨o.batchSubmit, o.single⟩ r.1 s.retryQueue
          ⟨⟨rb.queue, false⟩, r.2.1 ++ rb.events,
            .getActivePaymentIds :: (r.2.2 ++ rb.calls)⟩
        else
          let rs := processEachSingle cfg o.single r.1 s.retryQueue
          ⟨⟨rs.queue, false⟩, r.2.1 ++ rs.events,
            .getActivePaymentIds :: (r.2.2 ++ rs.calls)⟩

/-- Outcomes of the external calls one processRetryQueue tick can make,
per payment identifier: the eligibility re-check, the submission with its
confirmation wait, and the recurringPayments detail read used when
building the success or terminal-failure notification. -/
structure RetryOracle where
  canProcess : String → Except Err Bool
  submit : String → Except Err String
  detailRead : String → Except Err PaymentRecord

/-- Catch block of the drain loop (PaymentAgent.ts lines 316-342):
increment the snapshot count; once the incremented count reaches
MAX_RETRIES delete the entry and, when a webhook is configured, fetch
details for the terminal notification (a fetch inside the catch block, so
its failure escapes); otherwise store the incremented count. -/
def retryFailure (w : String) (o : RetryOracle) (pid : String) (count : Nat)
    (q : RetryQueue) (evs : List Event) (cs : List Call) : OpResult :=
  let newRetryCount := count + 1
  if newRetryCount ≥ MAX_RETRIES then
    if w = "" then ⟨rqDelete q pid, evs, cs, none⟩
    else
      match o.detailRead pid with
      | .error e => ⟨rqDelete q pid, evs, cs ++ [.recurringPayments pid], some e⟩
      | .ok _ =>
          ⟨rqDelete q pid, evs ++ [⟨.error, "Retry Payment Failed", some pid⟩],
            cs ++ [.recurringPayments pid], none⟩
  else ⟨rqSet q pid newRetryCount, evs, cs, none⟩

/-- One iteration of the drain loop (lines 277-343): re-check eligibility
(an ineligible payment is left unchanged), submit, and on success fetch
details for the success notification when a webhook is configured (a read
whose failure is caught by the same loop-body catch) before deleting the
entry. Every caught error goes through retryFailure with the entry count
from the loop snapshot. -/
def retryStep (w : String) (o : RetryOracle) (q : RetryQueue) (pid : String)
    (count : Nat) : OpResult :=
  match o.canProcess pid with
  | .error _ => retryFailure w o pid count q [] [.canProcessPayment pid]
  | .ok false => ⟨q, [], [.canProcessPayment pid], none⟩
  | .ok true =>
    match o.submit pid with
    | .error _ =>
        retryFailure w o pid count q []
          [.canProcessPayment pid, .processRecurringPayment pid]
    | .ok _ =>
      if w = "" then
        ⟨rqDelete q pid, [],
          [.canProcessPayment pid, .processRecurringPayment pid], none⟩
      else
        match o.detailRead pid with
        | .error _ =>
            retryFailure w o pid count q []
              [.canProcessPayment pid, .processRecurringPayment pid,
                .recurringPayments pid]
        | .ok _ =>
            ⟨rqDelete q pid, [⟨.success, "Retry Payment Successful", some pid⟩],
              [.canProcessPayment pid, .processRecurringPayment pid,
                .recurringPayments pid], none⟩

/-- Fold of retryStep over the entry snapshot, aborting when an iteration
rejects, because the drain has no surrounding try block. -/
def processRetryQueueAux (w : String) (o : RetryOracle) :
    List (String × Nat) → RetryQueue → OpResult
  | [], q => ⟨q, [], [], none⟩
  | (pid, count) :: rest, q =>
    let r := retryStep w o q pid count
    match r.outcome with
    | some e => ⟨r.queue, r.events, r.calls, some e⟩
    | none =>
      let r2 := processRetryQueueAux w o rest r.queue
      ⟨r2.queue, r.events ++ r2.events, r.calls ++ r2.calls, r2.outcome⟩

/-- Model of processRetryQueue (PaymentAgent.ts lines 270-344). The for-of
loop iterates the entries present when the loop starts; its body only
deletes or updates the entry currently visited, so iterating the initial
snapshot coincides with the live iteration of the JavaScript Map. -/
def processRetryQueue (cfg : Config) (o : RetryOracle) (q : RetryQueue) : OpResult :=
  if q.isEmpty then ⟨q, [], [], none⟩
  else processRetryQueueAux cfg.webhookUrl o q q

/-- Outcomes of the external calls one checkBalance tick can make. -/
structure BalanceOracle where
  walletBalance : Except Err Nat
  contractBalance : Except Err Nat
  activeIds : Except Err (List String)
  detailRead : String → Except Err PaymentRecord
  now : Nat

/-- Loop of checkBalance over active payments (lines 382-411): a warning
for every payment due within 24 hours whose amount exceeds the contract
balance. A detail-read error aborts the rest of the loop because the only
catch is the one around the whole function body. -/
def checkBalanceLoop (w : String) (o : BalanceOracle) (contractBalance : Nat) :
    List String → List Event × List Call × Option Err
  | [] => ([], [], none)
  | pid :: rest =>
    match o.detailRead pid with
    | .error e => ([], [.recurringPayments pid], some e)
    | .ok p =>
      let timeUntilNext : Int := (p.lastPayment : Int) + (p.interval : Int) - (o.now : Int)
      let evs :=
        if timeUntilNext ≤ 86400 ∧ 0 < timeUntilNext ∧ contractBalance < p.amount then
          emitIf w ⟨.warning, "Upcoming Payment - Insufficient Balance", some pid⟩
        else []
      let r := checkBalanceLoop w o contractBalance rest
      (evs ++ r.1, .recurringPayments pid :: r.2.1, r.2.2)

/-- Model of checkBalance (PaymentAgent.ts lines 349-415). The whole body
is inside one try/catch, so the tick always resolves; any read error
abandons the remainder of the check for this tick. -/
def checkBalance (cfg : Config) (o : BalanceOracle) : List Event × List Call :=
  match o.walletBalance with
  | .error _ => ([], [.getBalance])
  | .ok wb =>
    let lowEvs :=
      if wb < cfg.lowBalanceThreshold then
        emitIf cfg.webhookUrl ⟨.warning, "Agent Wallet Low Balance", none⟩
      else []
    match o.contractBalance with
    | .error _ => (lowEvs, [.getBalance, .getContractBalance])
    | .ok cb =>
      match o.activeIds with
      | .error _ => (lowEvs, [.getBalance, .getContractBalance, .getActivePaymentIds])
      | .ok ids =>
        let r := checkBalanceLoop cfg.webhookUrl o cb ids
        (lowEvs ++ r.1, [.getBalance, .getContractBalance, .getActivePaymentIds] ++ r.2.1)

/-- Outcomes of the external calls one analyzePaymentPatterns run makes. -/
structure AnalyzeOracle where
  activeIds : Except Err (List String)
  detailRead : String → Except Err PaymentRecord

/-- Push a payment id onto its interval group, creating the group at the
end on first use, as the Record of lines 444-455 does. -/
def addToGroup : List (Nat × List String) → Nat → String → List (Nat × List String)
  | [], i, pid => [(i, [pid])]
  | (j, ps) :: rest, i, pid =>
      if j = i then (j, ps ++ [pid]) :: rest else (j, ps) :: addToGroup rest i pid

/-- Grouping loop of analyzePaymentPatterns; a detail-read error is caught
by the function-level catch and yields no grouping at all. -/
def analyzeLoop (o : AnalyzeOracle) :
    List String → List (Nat × List String) → Option (List (Nat × List String))
  | [], g => some g
  | pid :: rest, g =>
    match o.detailRead pid with
    | .error _ => none
    | .ok p => analyzeLoop o rest (addToGroup g p.interval pid)

/-- Model of analyzePaymentPatterns (PaymentAgent.ts lines 436-471):
purely diagnostic, reads no configuration, always resolves. Returns the
interval groups and the intervals recommended for batching (groups of
more than 3 members); a read failure yields empty output. -/
def analyzePaymentPatterns (_cfg : Config) (o : AnalyzeOracle) :
    List (Nat × List String) × List Nat :=
  match o.activeIds with
  | .error _ => ([], [])
  | .ok ids =>
    match analyzeLoop o ids [] with
    | none => ([], [])
    | some g => (g, (g.filter (fun e => 3 < e.2.length)).map Prod.fst)

/-- Dispatch decision as the specification words it: batch exactly when
the number of due payments exceeds the configured batch-processing
threshold. Stated only for comparison with the implemented decision,
which compares against the literal 3. -/
def specBatchDecision (threshold n : Nat) : Bool := threshold < n

/-! ## Concrete fixtures used by counterexamples and witnesses -/

/-- Sample payment record: hourly interval starting at epoch. -/
def samplePayment : PaymentRecord := ⟨"0xRecipient", 1000, 3600, 0, true⟩

/-- Configuration with no webhook configured (WEBHOOK_URL unset). -/
def cfgNoHook : Config :=
  ⟨some "http://localhost:8545", "0xContract", "0xKey", "", 100, 60, 3, 12, 3⟩

/-- Configuration with a webhook configured. -/
def cfgHook : Config :=
  ⟨some "http://localhost:8545", "0xContract", "0xKey",
    "http://localhost:3001/webhook", 100, 60, 3, 12, 3⟩

/-- Configuration equal to cfgNoHook except for retryLimit and
batchProcessingThreshold. -/
def cfgAlt : Config :=
  ⟨some "http://localhost:8545", "0xContract", "0xKey", "", 100, 60, 99, 12, 42⟩

/-- Configuration whose batchProcessingThreshold is 5 instead of the
default 3, webhook unset. -/
def cfgThresh5 : Config :=
  ⟨some "http://localhost:8545", "0xContract", "0xKey", "", 100, 60, 3, 12, 5⟩

/-- Single-payment outcomes: reads succeed, submission fails. -/
def soSubmitFail : SingleOracle :=
  ⟨.ok samplePayment, .error .submission, .ok samplePayment⟩

/-- Single-payment outcomes: everything succeeds. -/
def soOk : SingleOracle := ⟨.ok samplePayment, .ok "0xtx", .ok samplePayment⟩

/-- Single-payment outcomes: submission fails and the detail read inside
the catch block also fails. -/
def soCeilingReject : SingleOracle :=
  ⟨.ok samplePayment, .error .submission, .error .gateway⟩

/-- Drain outcomes: eligible, submission fails, detail reads succeed. -/
def roSubmitFail : RetryOracle :=
  ⟨fun _ => .ok true, fun _ => .error .submission, fun _ => .ok samplePayment⟩

/-- Drain outcomes: eligible, submission succeeds, but the detail read for
the success notification fails. -/
def roSuccReadErr : RetryOracle :=
  ⟨fun _ => .ok true, fun _ => .ok "0xtx", fun _ => .error .gateway⟩

/-- Drain outcomes: eligible, submission fails, detail read fails. -/
def roFailReadErr : RetryOracle :=
  ⟨fun _ => .ok true, fun _ => .error .submission, fun _ => .error .gateway⟩

/-- Drain outcomes: the eligibility re-check itself fails. -/
def roRecheckErr : RetryOracle :=
  ⟨fun _ => .error .gateway, fun _ => .ok "0xtx", fun _ => .ok samplePayment⟩

/-- Drain outcomes: the payment is not yet eligible. -/
def roNotEligible : RetryOracle :=
  ⟨fun _ => .ok false, fun _ => .ok "0xtx", fun _ => .ok samplePayment⟩

/-- Batch outcomes: the batch fails; the single path for id 1 hits a
failing submission and a failing catch-block detail read, the others
succeed. -/
def boFallbackReject : BatchOracle :=
  ⟨.error .submission, fun pid => if pid = "1" then soCeilingReject else soOk⟩

/-- Batch outcomes: the batch fails and every fallback single submission
fails with intact detail reads. -/
def boAllSinglesFail : BatchOracle := ⟨.error .submission, fun _ => soSubmitFail⟩

/-- Scan outcomes: no active payments. -/
def scanOracleEmpty : ScanOracle :=
  ⟨.ok [], fun _ => .ok true, fun _ => .ok samplePayment, 0, .ok "0xbatch", fun _ => soOk⟩

/-- Scan outcomes: three active payments, all eligible, all succeed. -/
def scanOracle3 : ScanOracle :=
  ⟨.ok ["1", "2", "3"], fun _ => .ok true, fun _ => .ok samplePayment, 0,
    .ok "0xbatch", fun _ => soOk⟩

/-- Scan outcomes: four active payments, all eligible, all succeed. -/
def scanOracle4 : ScanOracle :=
  ⟨.ok ["1", "2", "3", "4"], fun _ => .ok true, fun _ => .ok samplePayment, 0,
    .ok "0xbatch", fun _ => soOk⟩

/-! ## Retry-queue map lemmas -/

theorem rqGet_set_self (q : RetryQueue) (k : String) (v : Nat) :
    rqGet (rqSet q k v) k = some v := by
  induction q with
  | nil => simp [rqSet, rqGet]
  | cons h t ih =>
    obtain ⟨k1, v1⟩ := h
    by_cases hk : k1 = k <;> simp [rqSet, rqGet, hk, ih]

theorem rqGet_set_ne (q : RetryQueue) (k k1 : String) (v : Nat) (h : k1 ≠ k) :
    rqGet (rqSet q k v) k1 = rqGet q k1 := by
  induction q with
  | nil => simp [rqSet, rqGet, Ne.symm h]
  | cons hd t ih =>
    obtain ⟨k2, v2⟩ := hd
    by_cases hk : k2 = k
    · subst hk
      simp [rqSet, rqGet, Ne.symm h]
    · by_cases hk1 : k2 = k1 <;> simp [rqSet, rqGet, hk, hk1, h, ih]

theorem rqGet_delete_self (q : RetryQueue) (k : String) :
    rqGet (rqDelete q k) k = none := by
  induction q with
  | nil => simp [rqDelete, rqGet]
  | cons h t ih =>
    obtain ⟨k1, v1⟩ := h
    by_cases hk : k1 = k <;> simp [rqDelete, rqGet, hk, ih]

theorem rqGet_delete_ne (q : RetryQueue) (k k1 : String) (h : k1 ≠ k) :
    rqGet (rqDelete q k) k1 = rqGet q k1 := by
  induction q with
  | nil => simp [rqDelete, rqGet]
  | cons hd t ih =>
    obtain ⟨k2, v2⟩ := hd
    by_cases hk : k2 = k
    · subst hk
      simp [rqDelete, rqGet, Ne.symm h, ih]
    · by_cases hk1 : k2 = k1 <;> simp [rqDelete, rqGet, hk, hk1, h, ih]

/-- Invariant of claim C1 in its amended form: every count stored in the
retry queue is at most MAX_RETRIES. -/
def rqBounded (q : RetryQueue) : Prop := ∀ e ∈ q, e.2 ≤ MAX_RETRIES

instance (q : RetryQueue) : Decidable (rqBounded q) := by
  unfold rqBounded; infer_instance

theorem rqBounded_nil : rqBounded [] := by intro e he; cases he

theorem rqGet_le_of_bounded (q : RetryQueue) (k : String) (v : Nat)
    (hq : rqBounded q) (h : rqGet q k = some v) : v ≤ MAX_RETRIES := by
  induction q with
  | nil => simp [rqGet] at h
  | cons hd t ih =>
    obtain ⟨k1, v1⟩ := hd
    by_cases hk : k1 = k
    · simp [rqGet, hk] at h
      subst h
      exact hq ⟨k1, v1⟩ (by simp)
    · simp [rqGet, hk] at h
      exact ih (fun e he => hq e (List.mem_cons_of_mem _ he)) h

theorem rqBounded_set (q : RetryQueue) (k : String) (v : Nat)
    (hq : rqBounded q) (hv : v ≤ MAX_RETRIES) : rqBounded (rqSet q k v) := by
  induction q with
  | nil =>
    intro e he
    simp [rqSet] at he
    simp [he, hv]
  | cons hd t ih =>
    obtain ⟨k1, v1⟩ := hd
    by_cases hk : k1 = k
    · intro e he
      simp [rqSet, hk] at he
      rcases he with he | he
      · simp [he, hv]
      · exact hq e (List.mem_cons_of_mem _ he)
    · intro e he
      simp [rqSet, hk] at he
      rcases he with he | he
      · exact hq e (by simp [he])
      · exact ih (fun x hx => hq x (List.mem_cons_of_mem _ hx)) e he

theorem rqBounded_delete (q : RetryQueue) (k : String)
    (hq : rqBounded q) : rqBounded (rqDelete q k) := by
  induction q with
  | nil => intro e he; cases he
  | cons hd t ih =>
    obtain ⟨k1, v1⟩ := hd
    by_cases hk : k1 = k
    · simp only [rqDelete, hk, if_pos rfl]
      exact ih fun x hx => hq x (List.mem_cons_of_mem _ hx)
    · intro e he
      simp [rqDelete, hk] at he
      rcases he with he | he
      · exact hq e (by simp [he])
      · exact ih (fun x hx => hq x (List.mem_cons_of_mem _ hx)) e he

theorem rqBounded_deleteFold (pids : List String) (q : RetryQueue)
    (hq : rqBounded q) :
    rqBounded (pids.foldl (fun acc pid => rqDelete acc pid) q) := by
  induction pids generalizing q with
  | nil => simpa using hq
  | cons p t ih => exact ih _ (rqBounded_delete q p hq)

/-! ## Preservation of the count bound by every operation -/

theorem processSingleFailure_bounded (w : String) (o : SingleOracle)
    (pid : String) (q : RetryQueue) (evs : List Event) (cs : List Call)
    (hq : rqBounded q) :
    rqBounded (processSingleFailure w o pid q evs cs).queue := by
  unfold processSingleFailure
  by_cases hlt : (rqGet q pid).getD 0 < MAX_RETRIES
  · simpa [hlt] using rqBounded_set q pid _ hq (by omega)
  · by_cases hw : w = ""
    · simpa [hlt, hw] using hq
    · cases hfd : o.failDetailRead <;> simpa [hlt, hw, hfd] using hq

theorem processSinglePayment_bounded (cfg : Config) (o : SingleOracle)
    (pid : String) (q : RetryQueue) (hq : rqBounded q) :
    rqBounded (processSinglePayment cfg o pid q).queue := by
  unfold processSinglePayment
  cases hd : o.detailRead with
  | error e => simpa using processSingleFailure_bounded _ o pid q _ _ hq
  | ok p =>
    cases hs : o.submit with
    | error e => simpa using processSingleFailure_bounded _ o pid q _ _ hq
    | ok tx => simpa using rqBounded_delete q pid hq

theorem processEachSingle_bounded (cfg : Config) (so : String → SingleOracle)
    (pids : List String) (q : RetryQueue) (hq : rqBounded q) :
    rqBounded (processEachSingle cfg so pids q).queue := by
  induction pids generalizing q with
  | nil => simpa [processEachSingle] using hq
  | cons p t ih =>
    have h1 := processSinglePayment_bounded cfg (so p) p q hq
    unfold processEachSingle
    cases hoc : (processSinglePayment cfg (so p) p q).outcome with
    | some e => simpa [hoc] using h1
    | none => simpa [hoc] using ih _ h1

theorem processBatchPayments_bounded (cfg : Config) (o : BatchOracle)
    (pids : List String) (q : RetryQueue) (hq : rqBounded q) :
    rqBounded (processBatchPayments cfg o pids q).queue := by
  unfold processBatchPayments
  cases hb : o.batchSubmit with
  | ok tx => simpa using rqBounded_deleteFold pids q hq
  | error e => simpa using processEachSingle_bounded cfg o.single pids q hq

theorem retryFailure_bounded (w : String) (o : RetryOracle) (pid : String)
    (count : Nat) (q : RetryQueue) (evs : List Event) (cs : List Call)
    (hq : rqBounded q) :
    rqBounded (retryFailure w o pid count q evs cs).queue := by
  unfold retryFailure
  by_cases hge : count + 1 ≥ MAX_RETRIES
  · by_cases hw : w = ""
    · simpa [hge, hw] using rqBounded_delete q pid hq
    · cases hfd : o.detailRead pid <;>
        simpa [hge, hw, hfd] using rqBounded_delete q pid hq
  · simpa [hge] using rqBounded_set q pid (count + 1) hq (by omega)

theorem retryStep_bounded (w : String) (o : RetryOracle) (q : RetryQueue)
    (pid : String) (count : Nat) (hq : rqBounded q) :
    rqBounded (retryStep w o q pid count).queue := by
  unfold retryStep
  cases hc : o.canProcess pid with
  | error e => simpa using retryFailure_bounded w o pid count q _ _ hq
  | ok b =>
    cases b with
    | false => simpa using hq
    | true =>
      cases hs : o.submit pid with
      | error e => simpa using retryFailure_bounded w o pid count q _ _ hq
      | ok tx =>
        by_cases hw : w = ""
        · simpa [hw] using rqBounded_delete q pid hq
        · cases hfd : o.detailRead pid with
          | error e => simpa [hw, hfd] using retryFailure_bounded w o pid count q _ _ hq
          | ok p => simpa [hw, hfd] using rqBounded_delete q pid hq

theorem processRetryQueueAux_bounded (w : String) (o : RetryOracle)
    (entries : List (String × Nat)) (q : RetryQueue) (hq : rqBounded q) :
    rqBounded (processRetryQueueAux w o entries q).queue := by
  induction entries generalizing q with
  | nil => simpa [processRetryQueueAux] using hq
  | cons e t ih =>
    obtain ⟨pid, count⟩ := e
    have h1 := retryStep_bounded w o q pid count hq
    unfold processRetryQueueAux
    cases hoc : (retryStep w o q pid count).outcome with
    | some err => simpa [hoc] using h1
    | none => simpa [hoc] using ih _ h1

theorem processRetryQueue_bounded (cfg : Config) (o : RetryOracle)
    (q : RetryQueue) (hq : rqBounded q) :
    rqBounded (processRetryQueue cfg o q).queue := by
  unfold processRetryQueue
  by_cases he : q.isEmpty
  · simpa [he] using hq
  · simpa [he] using processRetryQueueAux_bounded cfg.webhookUrl o q q hq

theorem checkAndProcessPayments_bounded (cfg : Config) (o : ScanOracle)
    (s : AgentState) (hq : rqBounded s.retryQueue) :
    rqBounded (checkAndProcessPayments cfg o s).state.retryQueue := by
  unfold checkAndProcessPayments
  by_cases hg : s.isProcessing
  · simpa [hg] using hq
  · cases hids : o.activeIds with
    | error e => simpa [hg, hids] using hq
    | ok ids =>
      by_cases hemp : ids.isEmpty
      · simpa [hg, hids, hemp] using hq
      · by_cases hpe : (scanAll cfg o ids).1.isEmpty
        · simpa [hg, hids, hemp, hpe] using hq
        · by_cases hlen : (scanAll cfg o ids).1.length > 3
          · simpa [hg, hids, hemp, hpe, hlen] using
              processBatchPayments_bounded cfg ⟨o.batchSubmit, o.single⟩
                (scanAll cfg o ids).1 s.retryQueue hq
          · simpa [hg, hids, hemp, hpe, hlen] using
              processEachSingle_bounded cfg o.single (scanAll cfg o ids).1
                s.retryQueue hq

/-! ## Call-trace helpers -/

/-- Restriction of a call trace to single-payment submissions. -/
def submitCallsOf (cs : List Call) : List Call :=
  cs.filter fun c => match c with
    | .processRecurringPayment _ => true
    | _ => false

/-- Restriction of a call trace to batch submissions. -/
def batchCallsOf (cs : List Call) : List Call :=
  cs.filter fun c => match c with
    | .processMultiplePayments _ => true
    | _ => false

/-- Success test for an external-call outcome. -/
def exOk {α : Type} : Except Err α → Bool
  | .ok _ => true
  | .error _ => false

theorem submitCallsOf_append (a b : List Call) :
    submitCallsOf (a ++ b) = submitCallsOf a ++ submitCallsOf b := by
  simp [submitCallsOf]

theorem batchCallsOf_append (a b : List Call) :
    batchCallsOf (a ++ b) = batchCallsOf a ++ batchCallsOf b := by
  simp [batchCallsOf]

/-! ## Claim C1 -/

/-- C1 counterexample. The claimed invariant, that every count present in
the retry queue is strictly below MAX_RETRIES, fails on a reachable
state: starting from the empty queue, three consecutive failing
processSinglePayment calls for the same identifier leave the entry in the
queue with count equal to MAX_RETRIES, because the single-payment failure
path stores currentRetries + 1 whenever currentRetries < MAX_RETRIES and
never deletes the entry at the ceiling. -/
theorem retry_count_reaches_max_in_queue :
    rqGet (processSinglePayment cfgNoHook soSubmitFail "5"
      (processSinglePayment cfgNoHook soSubmitFail "5"
        (processSinglePayment cfgNoHook soSubmitFail "5"
          ([] : RetryQueue)).queue).queue).queue "5" = some MAX_RETRIES ∧
    ¬ MAX_RETRIES < MAX_RETRIES := by decide

/-- C1, amended: the invariant that holds on every reachable state of the
retry queue is count ≤ MAX_RETRIES (counts are bounded by, and can equal,
the ceiling). It holds of the initial empty queue and is preserved by
every operation: the single-payment failure path increments only counts
strictly below MAX_RETRIES, so it can store the value MAX_RETRIES itself,
while the drain failure path deletes an entry instead of storing a count
that would reach MAX_RETRIES. -/
theorem retry_queue_counts_at_most_max (cfg : Config) (q : RetryQueue)
    (hq : rqBounded q) :
    rqBounded ([] : RetryQueue) ∧
    (∀ (o : SingleOracle) (pid : String),
      rqBounded (processSinglePayment cfg o pid q).queue) ∧
    (∀ (o : BatchOracle) (pids : List String),
      rqBounded (processBatchPayments cfg o pids q).queue) ∧
    (∀ o : RetryOracle, rqBounded (processRetryQueue cfg o q).queue) ∧
    (∀ (o : ScanOracle) (b : Bool),
      rqBounded (checkAndProcessPayments cfg o ⟨q, b⟩).state.retryQueue) :=
  ⟨rqBounded_nil,
    fun o pid => processSinglePayment_bounded cfg o pid q hq,
    fun o pids => processBatchPayments_bounded cfg o pids q hq,
    fun o => processRetryQueue_bounded cfg o q hq,
    fun o b => checkAndProcessPayments_bounded cfg o ⟨q, b⟩ hq⟩

/-- C1 witness: the amended invariant applied to the concrete reachable
queue holding the identifier 5 at the ceiling, drained with a failing
submission. -/
theorem retry_queue_counts_at_most_max_witness :
    rqBounded (processRetryQueue cfgNoHook roSubmitFail
      [("5", MAX_RETRIES)]).queue :=
  (retry_queue_counts_at_most_max cfgNoHook [("5", MAX_RETRIES)]
    (by decide)).2.2.2.1 roSubmitFail

/-! ## Claim C2 -/

/-- C2 counterexample. With an entry already recorded at MAX_RETRIES, a
failing single submission resolves without dropping the identifier: the
entry is still present with count MAX_RETRIES afterwards, and a
subsequent drain tick submits the identifier again (a 4th attempt), so
the identifier is neither dropped by the single-submission failure path
nor protected from a further retry. -/
theorem ceiling_failure_entry_not_dropped :
    rqGet (processSinglePayment cfgHook soSubmitFail "5"
      [("5", MAX_RETRIES)]).queue "5" = some MAX_RETRIES ∧
    (processSinglePayment cfgHook soSubmitFail "5"
      [("5", MAX_RETRIES)]).outcome = none ∧
    Call.processRecurringPayment "5" ∈
      (processRetryQueue cfgHook roSubmitFail [("5", MAX_RETRIES)]).calls := by
  decide

/-- C2, amended: when a submission fails while the recorded count is
already MAX_RETRIES, the single-submission failure path does not
increment or re-insert, and it emits the terminal error notification when
a webhook is configured, but it does not drop the identifier: the queue
is left unchanged with the entry still at MAX_RETRIES, and the identifier
can be submitted once more by the drain, which then deletes the entry. -/
theorem single_failure_at_ceiling_behavior (cfg : Config) (o : SingleOracle)
    (pid : String) (q : RetryQueue) (p1 p2 : PaymentRecord) (e : Err)
    (hq : rqGet q pid = some MAX_RETRIES)
    (hd : o.detailRead = .ok p1) (hs : o.submit = .error e)
    (hf : o.failDetailRead = .ok p2) :
    (processSinglePayment cfg o pid q).queue = q ∧
    (processSinglePayment cfg o pid q).outcome = none ∧
    (cfg.webhookUrl ≠ "" →
      Event.mk .error "Payment Failed" (some pid) ∈
        (processSinglePayment cfg o pid q).events) ∧
    (∀ (ro : RetryOracle) (e2 : Err),
      ro.canProcess pid = .ok true → ro.submit pid = .error e2 →
      rqGet (retryStep cfg.webhookUrl ro q pid MAX_RETRIES).queue pid = none) := by
  have hnc : ¬ (rqGet q pid).getD 0 < MAX_RETRIES := by
    rw [hq]; simp
  refine ⟨?_, ?_, ?_, ?_⟩
  · by_cases hw : cfg.webhookUrl = "" <;>
      simp [processSinglePayment, hd, hs, processSingleFailure, hnc, hw, hf]
  · by_cases hw : cfg.webhookUrl = "" <;>
      simp [processSinglePayment, hd, hs, processSingleFailure, hnc, hw, hf]
  · intro hw
    simp [processSinglePayment, hd, hs, processSingleFailure, hnc, hw, hf]
  · intro ro e2 hc hsub
    have hge : MAX_RETRIES + 1 ≥ MAX_RETRIES := by omega
    by_cases hw : cfg.webhookUrl = ""
    · simp [retryStep, hc, hsub, retryFailure, hge, hw, rqGet_delete_self]
    · cases hfd : ro.detailRead pid <;>
        simp [retryStep, hc, hsub, retryFailure, hge, hw, hfd, rqGet_delete_self]

/-- C2 witness: the amended ceiling behavior at the concrete queue holding
identifier 5 at MAX_RETRIES with a failing submission. -/
theorem single_failure_at_ceiling_behavior_witness :
    (processSinglePayment cfgHook soSubmitFail "5"
      [("5", MAX_RETRIES)]).queue = [("5", MAX_RETRIES)] ∧
    (processSinglePayment cfgHook soSubmitFail "5"
      [("5", MAX_RETRIES)]).outcome = none :=
  ⟨(single_failure_at_ceiling_behavior cfgHook soSubmitFail "5"
      [("5", MAX_RETRIES)] samplePayment samplePayment .submission
      (by decide) rfl rfl rfl).1,
    (single_failure_at_ceiling_behavior cfgHook soSubmitFail "5"
      [("5", MAX_RETRIES)] samplePayment samplePayment .submission
      (by decide) rfl rfl rfl).2.1⟩

/-! ## Claim C3 -/

/-- C3: at most one concurrent scan via the isProcessing guard. A tick
that begins while the guard is set returns immediately with no gateway
calls, no events and no state change; a tick that acquires the guard ends
with the guard released on every exit path, including the early return on
an empty active-payment list (shown explicitly) and every caught error. -/
theorem scan_tick_guard (cfg : Config) (o : ScanOracle) (s : AgentState) :
    (s.isProcessing = true → checkAndProcessPayments cfg o s = ⟨s, [], []⟩) ∧
    (s.isProcessing = false →
      (checkAndProcessPayments cfg o s).state.isProcessing = false) ∧
    (s.isProcessing = false → o.activeIds = .ok [] →
      checkAndProcessPayments cfg o s =
        ⟨⟨s.retryQueue, false⟩, [], [Call.getActivePaymentIds]⟩) := by
  refine ⟨?_, ?_, ?_⟩
  · intro h; simp [checkAndProcessPayments, h]
  · intro h
    unfold checkAndProcessPayments
    rw [h]
    cases hids : o.activeIds with
    | error e => simp
    | ok ids =>
      by_cases hemp : ids.isEmpty
      · simp [hemp]
      · by_cases hpe : (scanAll cfg o ids).1.isEmpty
        · simp [hemp, hpe]
        · by_cases hlen : (scanAll cfg o ids).1.length > 3 <;>
            simp [hemp, hpe, hlen]
  · intro h hids
    simp [checkAndProcessPayments, h, hids]

/-- C3 witness: a guarded tick is a no-op, and an unguarded tick on an
empty active list releases the guard. -/
theorem scan_tick_guard_witness :
    checkAndProcessPayments cfgNoHook scanOracleEmpty ⟨[("5", 1)], true⟩ =
      ⟨⟨[("5", 1)], true⟩, [], []⟩ ∧
    (checkAndProcessPayments cfgNoHook scanOracleEmpty
      ⟨[], false⟩).state.isProcessing = false :=
  ⟨(scan_tick_guard cfgNoHook scanOracleEmpty ⟨[("5", 1)], true⟩).1 rfl,
    (scan_tick_guard cfgNoHook scanOracleEmpty ⟨[], false⟩).2.1 rfl⟩

/-! ## Claim C4 -/

/-- C4, evaluated at the failing input. In the drain, a successful
submission whose follow-up detail read (for the success notification)
fails is handed to the loop catch, which increments the retry count
instead of removing the entry: starting from count 1, the successful
payment ends with count 2, still enqueued for a future retry, even though
the submission call was made and returned success. The spec says a
successful submission always removes the entry. -/
theorem drain_success_detail_read_error_increments :
    rqGet (processRetryQueue cfgHook roSuccReadErr [("7", 1)]).queue "7"
      = some 2 ∧
    (processRetryQueue cfgHook roSuccReadErr [("7", 1)]).outcome = none ∧
    Call.processRecurringPayment "7" ∈
      (processRetryQueue cfgHook roSuccReadErr [("7", 1)]).calls := by decide

/-! ## Claim C5 -/

/-- C5 counterexample. A batch of two identifiers whose batch submission
fails: the fallback single path for identifier 1 (already at the retry
ceiling, webhook configured) rejects because the detail read inside its
catch block fails, so processBatchPayments rejects to its caller and
identifier 2 is never submitted at all during the fallback, refuting both
the no-raise clause and the exactly-once clause. -/
theorem batch_fallback_rejects_and_skips :
    (processBatchPayments cfgHook boFallbackReject ["1", "2"]
      [("1", MAX_RETRIES)]).outcome = some .gateway ∧
    Call.processRecurringPayment "2" ∉
      (processBatchPayments cfgHook boFallbackReject ["1", "2"]
        [("1", MAX_RETRIES)]).calls := by decide

theorem submitCallsOf_cons_batch (ps : List String) (cs : List Call) :
    submitCallsOf (Call.processMultiplePayments ps :: cs) = submitCallsOf cs := by
  simp [submitCallsOf]

theorem batchCallsOf_cons_active (cs : List Call) :
    batchCallsOf (Call.getActivePaymentIds :: cs) = batchCallsOf cs := by
  simp [batchCallsOf]

theorem batchCallsOf_cons_batch (ps : List String) (cs : List Call) :
    batchCallsOf (Call.processMultiplePayments ps :: cs) =
      Call.processMultiplePayments ps :: batchCallsOf cs := by
  simp [batchCallsOf]

theorem processSingle_resolves_submits_once (cfg : Config) (o : SingleOracle)
    (pid : String) (q : RetryQueue)
    (h1 : exOk o.detailRead = true) (h2 : exOk o.failDetailRead = true) :
    (processSinglePayment cfg o pid q).outcome = none ∧
    submitCallsOf (processSinglePayment cfg o pid q).calls =
      [Call.processRecurringPayment pid] := by
  cases hd : o.detailRead with
  | error e => simp [exOk, hd] at h1
  | ok p =>
    cases hs : o.submit with
    | ok tx => simp [processSinglePayment, hd, hs, submitCallsOf]
    | error e =>
      cases hf : o.failDetailRead with
      | error e2 => simp [exOk, hf] at h2
      | ok p2 =>
        by_cases hlt : (rqGet q pid).getD 0 < MAX_RETRIES
        · simp [processSinglePayment, hd, hs, processSingleFailure, hlt,
            submitCallsOf]
        · by_cases hw : cfg.webhookUrl = "" <;>
            simp [processSinglePayment, hd, hs, processSingleFailure, hlt,
              hw, hf, submitCallsOf]

theorem processEachSingle_resolves_once (cfg : Config)
    (so : String → SingleOracle) (pids : List String) (q : RetryQueue)
    (h : ∀ pid ∈ pids, exOk (so pid).detailRead = true ∧
      exOk (so pid).failDetailRead = true) :
    (processEachSingle cfg so pids q).outcome = none ∧
    submitCallsOf (processEachSingle cfg so pids q).calls =
      pids.map Call.processRecurringPayment := by
  induction pids generalizing q with
  | nil => simp [processEachSingle, submitCallsOf]
  | cons p t ih =>
    have hp := h p (by simp)
    have h1 := processSingle_resolves_submits_once cfg (so p) p q hp.1 hp.2
    have ht := ih (processSinglePayment cfg (so p) p q).queue
      (fun x hx => h x (List.mem_cons_of_mem _ hx))
    unfold processEachSingle
    simp [h1.1, submitCallsOf_append, h1.2, ht.1, ht.2]

/-- C5, amended: when a non-empty batch submission fails, the batch error
is not raised and every identifier of the batch goes through the
single-submission path in batch order with exactly one submission call
each and no attempt double-counted, provided no identifier's own failure
handling rejects (that is, the detail reads of each fallback single
resolve; otherwise the rejection aborts the loop and later identifiers
are skipped, see the counterexample). -/
theorem batch_fallback_exactly_once (cfg : Config) (o : BatchOracle)
    (pids : List String) (q : RetryQueue) (e : Err)
    (hb : o.batchSubmit = .error e)
    (h : ∀ pid ∈ pids, exOk (o.single pid).detailRead = true ∧
      exOk (o.single pid).failDetailRead = true) :
    (processBatchPayments cfg o pids q).outcome = none ∧
    submitCallsOf (processBatchPayments cfg o pids q).calls =
      pids.map Call.processRecurringPayment := by
  have he := processEachSingle_resolves_once cfg o.single pids q h
  unfold processBatchPayments
  rw [hb]
  refine ⟨by simpa using he.1, ?_⟩
  show submitCallsOf (Call.processMultiplePayments pids ::
    (processEachSingle cfg o.single pids q).calls) = _
  rw [submitCallsOf_cons_batch, he.2]

/-- C5 witness: a failing batch of two identifiers whose fallback singles
all fail submission but keep their reads intact is absorbed, with exactly
one submission call per identifier in batch order. -/
theorem batch_fallback_exactly_once_witness :
    (processBatchPayments cfgHook boAllSinglesFail ["1", "2"] []).outcome
      = none ∧
    submitCallsOf (processBatchPayments cfgHook boAllSinglesFail
      ["1", "2"] []).calls = ["1", "2"].map Call.processRecurringPayment :=
  batch_fallback_exactly_once cfgHook boAllSinglesFail ["1", "2"] []
    .submission rfl (by decide)

/-! ## Claim C6 -/

/-- C6 counterexample. With batchProcessingThreshold configured as 5, a
scan tick with 4 processable payments still submits them as one batch,
because the dispatch decision compares against the literal 3 and never
reads the configured threshold; the decision the specification words
(count exceeds the configured threshold) is false at this input. -/
theorem batch_decision_ignores_configured_threshold :
    Call.processMultiplePayments ["1", "2", "3", "4"] ∈
      (checkAndProcessPayments cfgThresh5 scanOracle4 ⟨[], false⟩).calls ∧
    specBatchDecision cfgThresh5.batchProcessingThreshold 4 = false := by
  decide

theorem batchCallsOf_processSingleFailure (w : String) (o : SingleOracle)
    (pid : String) (q : RetryQueue) (evs : List Event) (cs : List Call) :
    batchCallsOf (processSingleFailure w o pid q evs cs).calls =
      batchCallsOf cs := by
  unfold processSingleFailure
  by_cases hlt : (rqGet q pid).getD 0 < MAX_RETRIES
  · simp [hlt]
  · by_cases hw : w = ""
    · simp [hlt, hw]
    · cases hf : o.failDetailRead <;>
        simp [hlt, hw, hf, batchCallsOf_append, batchCallsOf]

theorem batchCallsOf_processSinglePayment (cfg : Config) (o : SingleOracle)
    (pid : String) (q : RetryQueue) :
    batchCallsOf (processSinglePayment cfg o pid q).calls = [] := by
  unfold processSinglePayment
  cases hd : o.detailRead with
  | error e =>
    simp only [hd]
    rw [batchCallsOf_processSingleFailure]
    simp [batchCallsOf]
  | ok p =>
    cases hs : o.submit with
    | error e =>
      simp only [hd, hs]
      rw [batchCallsOf_processSingleFailure]
      simp [batchCallsOf]
    | ok tx =>
      simp only [hd, hs]
      simp [batchCallsOf]

theorem batchCallsOf_processEachSingle (cfg : Config)
    (so : String → SingleOracle) (pids : List String) (q : RetryQueue) :
    batchCallsOf (processEachSingle cfg so pids q).calls = [] := by
  induction pids generalizing q with
  | nil => simp [processEachSingle, batchCallsOf]
  | cons p t ih =>
    unfold processEachSingle
    cases hoc : (processSinglePayment cfg (so p) p q).outcome with
    | some e => simpa [hoc] using batchCallsOf_processSinglePayment cfg (so p) p q
    | none =>
      simp [hoc, batchCallsOf_append,
        batchCallsOf_processSinglePayment cfg (so p) p q, ih]

theorem batchCallsOf_processBatchPayments (cfg : Config) (o : BatchOracle)
    (pids : List String) (q : RetryQueue) :
    batchCallsOf (processBatchPayments cfg o pids q).calls =
      [Call.processMultiplePayments pids] := by
  unfold processBatchPayments
  cases hb : o.batchSubmit with
  | ok tx => simp [batchCallsOf]
  | error e =>
    simp [hb, batchCallsOf_cons_batch,
      batchCallsOf_processEachSingle cfg o.single pids q]

theorem batchCallsOf_scanOne (cfg : Config) (o : ScanOracle) (pid : String) :
    batchCallsOf (scanOne cfg o pid).2.2 = [] := by
  unfold scanOne
  cases hc : o.canProcess pid with
  | error e => simp [batchCallsOf]
  | ok b =>
    cases b with
    | true => simp [batchCallsOf]
    | false =>
      cases hd : o.detailRead pid with
      | error e => simp [batchCallsOf]
      | ok p =>
        cases hcl : classifyNonProcessable p o.now <;> simp [hcl, batchCallsOf]

theorem batchCallsOf_scanAll (cfg : Config) (o : ScanOracle)
    (ids : List String) :
    batchCallsOf (scanAll cfg o ids).2.2 = [] := by
  induction ids with
  | nil => simp [scanAll, batchCallsOf]
  | cons p t ih =>
    simp [scanAll, batchCallsOf_append, batchCallsOf_scanOne cfg o p, ih]

/-- C6, amended: for every processable set produced by a scan tick, batch
submission is attempted iff the count exceeds the literal 3 hard-coded in
the source, which coincides with the default configured threshold but is
independent of config.batchProcessingThreshold; in particular 3 due
payments are submitted individually and 4 as one batch (strict more-than,
not at-least). -/
theorem batch_decision_strict_gt_three (cfg : Config) (o : ScanOracle)
    (s : AgentState) (ids : List String)
    (hg : s.isProcessing = false) (hids : o.activeIds = .ok ids)
    (hne : ids.isEmpty = false)
    (hpne : (scanAll cfg o ids).1.isEmpty = false) :
    batchCallsOf (checkAndProcessPayments cfg o s).calls =
      if 3 < (scanAll cfg o ids).1.length then
        [Call.processMultiplePayments (scanAll cfg o ids).1]
      else [] := by
  unfold checkAndProcessPayments
  rw [hg, hids]
  by_cases hlen : (scanAll cfg o ids).1.length > 3
  · simp [hne, hpne, hlen, batchCallsOf_cons_active, batchCallsOf_append,
      batchCallsOf_scanAll cfg o ids,
      batchCallsOf_processBatchPayments cfg ⟨o.batchSubmit, o.single⟩
        (scanAll cfg o ids).1 s.retryQueue]
  · simp [hne, hpne, hlen, batchCallsOf_cons_active, batchCallsOf_append,
      batchCallsOf_scanAll cfg o ids,
      batchCallsOf_processEachSingle cfg o.single (scanAll cfg o ids).1
        s.retryQueue]

/-- C6 witness: with the default configuration, exactly 4 processable
payments produce one batch submission and exactly 3 produce none. -/
theorem batch_decision_strict_gt_three_witness :
    batchCallsOf (checkAndProcessPayments cfgNoHook scanOracle4
      ⟨[], false⟩).calls =
      [Call.processMultiplePayments ["1", "2", "3", "4"]] ∧
    batchCallsOf (checkAndProcessPayments cfgNoHook scanOracle3
      ⟨[], false⟩).calls = [] := by
  have h4 := batch_decision_strict_gt_three cfgNoHook scanOracle4 ⟨[], false⟩
    ["1", "2", "3", "4"] rfl rfl (by decide) (by decide)
  have h3 := batch_decision_strict_gt_three cfgNoHook scanOracle3 ⟨[], false⟩
    ["1", "2", "3"] rfl rfl (by decide) (by decide)
  constructor
  · rw [h4]; decide
  · rw [h3]; decide

/-! ## Claim C7 -/

/-- C7, evaluated at the failing inputs. Errors can escape both a
per-payment operation and a per-tick operation: with a webhook configured,
an identifier at the retry ceiling whose submission fails and whose
catch-block detail read also fails makes processSinglePayment reject, and
the same combination inside the drain loop makes the whole
processRetryQueue tick reject, contradicting the claim that each such
promise always resolves. -/
theorem per_operation_error_escapes :
    (processSinglePayment cfgHook soCeilingReject "9"
      [("9", MAX_RETRIES)]).outcome = some .gateway ∧
    (processRetryQueue cfgHook roFailReadErr [("9", 2)]).outcome
      = some .gateway := by decide

/-! ## Claim C8 -/

/-- C8 counterexample. An entry with count 1 whose eligibility re-check
fails with a gateway read error is not skipped without penalty: the drain
hands the read error to the loop catch, which increments the count to 2. -/
theorem drain_recheck_error_penalized :
    rqGet (processRetryQueue cfgNoHook roRecheckErr [("4", 1)]).queue "4"
      = some 2 := by decide

/-- C8, amended: during a drain, an entry whose eligibility re-check
returns false is left entirely unchanged (no submission, no events, no
penalty) and the drain continues with the next entry from the same queue;
but an eligibility re-check that fails with a gateway read error is
handled by the failure path, not skipped: the count is incremented when
the incremented count is still below MAX_RETRIES, and the entry is
deleted once it reaches MAX_RETRIES. -/
theorem drain_ineligible_and_recheck_error (w : String) (o : RetryOracle)
    (q : RetryQueue) (pid : String) (count : Nat)
    (rest : List (String × Nat)) (e : Err) :
    (o.canProcess pid = .ok false →
      retryStep w o q pid count = ⟨q, [], [Call.canProcessPayment pid], none⟩ ∧
      processRetryQueueAux w o ((pid, count) :: rest) q =
        ⟨(processRetryQueueAux w o rest q).queue,
          (processRetryQueueAux w o rest q).events,
          Call.canProcessPayment pid :: (processRetryQueueAux w o rest q).calls,
          (processRetryQueueAux w o rest q).outcome⟩) ∧
    (o.canProcess pid = .error e → count + 1 < MAX_RETRIES →
      (retryStep w o q pid count).queue = rqSet q pid (count + 1)) ∧
    (o.canProcess pid = .error e → MAX_RETRIES ≤ count + 1 →
      rqGet (retryStep w o q pid count).queue pid = none) := by
  refine ⟨?_, ?_, ?_⟩
  · intro hc
    have hstep : retryStep w o q pid count =
        ⟨q, [], [Call.canProcessPayment pid], none⟩ := by
      simp [retryStep, hc]
    refine ⟨hstep, ?_⟩
    simp only [processRetryQueueAux]
    rw [hstep]
    simp
  · intro hc hlt
    have hge : ¬ count + 1 ≥ MAX_RETRIES := by omega
    simp [retryStep, hc, retryFailure, hge]
  · intro hc hge1
    have hge : count + 1 ≥ MAX_RETRIES := hge1
    by_cases hw : w = ""
    · simp [retryStep, hc, retryFailure, hge, hw, rqGet_delete_self]
    · cases hfd : o.detailRead pid <;>
        simp [retryStep, hc, retryFailure, hge, hw, hfd, rqGet_delete_self]

/-- C8 witness: the unchanged-and-continue behavior at a concrete
ineligible entry, and the increment behavior at a concrete failing
re-check. -/
theorem drain_ineligible_and_recheck_error_witness :
    retryStep "" roNotEligible [("4", 1)] "4" 1 =
      ⟨[("4", 1)], [], [Call.canProcessPayment "4"], none⟩ ∧
    (retryStep "" roRecheckErr [("4", 1)] "4" 1).queue =
      rqSet [("4", 1)] "4" 2 :=
  ⟨((drain_ineligible_and_recheck_error "" roNotEligible [("4", 1)] "4" 1 []
      .gateway).1 rfl).1,
    (drain_ineligible_and_recheck_error "" roRecheckErr [("4", 1)] "4" 1 []
      .gateway).2.1 rfl (by decide)⟩

/-! ## Claim C9 -/

/-- C9: due-time boundary, in integer seconds. A payment with
lastPayment = T and interval = 3600 is classified not due with 1 second
remaining at now = T + 3599 and lands outside the not-yet-due partition
(in the blocked diagnostic, which presumes due-by-timing) at
now = T + 3600; and in general, for an active payment, due-by-timing
(now at least lastPayment + interval) holds exactly when the diagnostic
classification is not the not-yet-due one. -/
theorem due_time_boundary :
    (∀ (T amt : Nat) (recip : String),
      classifyNonProcessable ⟨recip, amt, 3600, T, true⟩ (T + 3599) =
        .notDueYet 1 ∧
      isDue ⟨recip, amt, 3600, T, true⟩ (T + 3599) = false ∧
      classifyNonProcessable ⟨recip, amt, 3600, T, true⟩ (T + 3600) =
        .blocked ∧
      isDue ⟨recip, amt, 3600, T, true⟩ (T + 3600) = true) ∧
    (∀ (p : PaymentRecord) (now : Nat), p.isActive = true →
      (isDue p now = true ↔ classifyNonProcessable p now = .blocked) ∧
      (isDue p now = false ↔
        classifyNonProcessable p now =
          .notDueYet (p.lastPayment + p.interval - now))) := by
  constructor
  · intro T amt recip
    refine ⟨?_, ?_, ?_, ?_⟩ <;> simp [classifyNonProcessable, isDue]
  · intro p now h
    by_cases hlt : now < p.lastPayment + p.interval
    · constructor <;> simp [classifyNonProcessable, isDue, h, hlt, Nat.not_le.mpr hlt]
    · constructor <;> simp [classifyNonProcessable, isDue, h, hlt, Nat.not_lt.mp hlt]

/-- C9 witness: the boundary at T = 100, and the general equivalence
discharged at the sample payment evaluated exactly at its due time. -/
theorem due_time_boundary_witness :
    classifyNonProcessable ⟨"0xR", 5, 3600, 100, true⟩ 3699 = .notDueYet 1 ∧
    (isDue samplePayment 3600 = true ↔
      classifyNonProcessable samplePayment 3600 = .blocked) :=
  ⟨(due_time_boundary.1 100 5 "0xR").1,
    (due_time_boundary.2 samplePayment 3600 rfl).1⟩

/-! ## Claim C10 -/

/-- Agreement of two configurations on every field other than retryLimit
and batchProcessingThreshold. -/
def configAgreesExceptRetryAndBatch (a b : Config) : Prop :=
  a.rpcUrl = b.rpcUrl ∧
  a.payrollContractAddress = b.payrollContractAddress ∧
  a.privateKey = b.privateKey ∧
  a.webhookUrl = b.webhookUrl ∧
  a.lowBalanceThreshold = b.lowBalanceThreshold ∧
  a.checkInterval = b.checkInterval ∧
  a.gasLimitBuffer = b.gasLimitBuffer

theorem processSinglePayment_congr (a b : Config)
    (hw : a.webhookUrl = b.webhookUrl) :
    ∀ (o : SingleOracle) (pid : String) (q : RetryQueue),
      processSinglePayment a o pid q = processSinglePayment b o pid q := by
  intro o pid q
  simp only [processSinglePayment, processSingleFailure, emitIf, hw]

theorem processEachSingle_congr (a b : Config)
    (hw : a.webhookUrl = b.webhookUrl) (so : String → SingleOracle) :
    ∀ (pids : List String) (q : RetryQueue),
      processEachSingle a so pids q = processEachSingle b so pids q := by
  intro pids
  induction pids with
  | nil => intro q; rfl
  | cons p t ih =>
    intro q
    simp only [processEachSingle, processSinglePayment_congr a b hw, ih]

theorem processBatchPayments_congr (a b : Config)
    (hw : a.webhookUrl = b.webhookUrl) :
    ∀ (o : BatchOracle) (pids : List String) (q : RetryQueue),
      processBatchPayments a o pids q = processBatchPayments b o pids q := by
  intro o pids q
  simp only [processBatchPayments, emitIf, hw,
    processEachSingle_congr a b hw o.single]

theorem scanOne_congr (a b : Config) (hw : a.webhookUrl = b.webhookUrl) :
    ∀ (o : ScanOracle) (pid : String), scanOne a o pid = scanOne b o pid := by
  intro o pid
  simp only [scanOne, hw]

theorem scanAll_congr (a b : Config) (hw : a.webhookUrl = b.webhookUrl)
    (o : ScanOracle) :
    ∀ ids : List String, scanAll a o ids = scanAll b o ids := by
  intro ids
  induction ids with
  | nil => rfl
  | cons p t ih => simp only [scanAll, scanOne_congr a b hw, ih]

theorem checkAndProcessPayments_congr (a b : Config)
    (hw : a.webhookUrl = b.webhookUrl) :
    ∀ (o : ScanOracle) (s : AgentState),
      checkAndProcessPayments a o s = checkAndProcessPayments b o s := by
  intro o s
  simp only [checkAndProcessPayments, scanAll_congr a b hw o,
    processBatchPayments_congr a b hw, processEachSingle_congr a b hw o.single]

theorem processRetryQueue_congr (a b : Config)
    (hw : a.webhookUrl = b.webhookUrl) :
    ∀ (o : RetryOracle) (q : RetryQueue),
      processRetryQueue a o q = processRetryQueue b o q := by
  intro o q
  simp only [processRetryQueue, hw]

theorem checkBalance_congr (a b : Config)
    (hw : a.webhookUrl = b.webhookUrl)
    (hl : a.lowBalanceThreshold = b.lowBalanceThreshold) :
    ∀ o : BalanceOracle, checkBalance a o = checkBalance b o := by
  intro o
  simp only [checkBalance, emitIf, hw, hl]

/-- C10: configuration noninterference. Two runs whose configurations
differ only in retryLimit and batchProcessingThreshold behave
identically on every operation of the agent, for every oracle and state;
the retry bound is the hard-coded MAX_RETRIES = 3 and the dispatch
decision uses the literal count exceeds 3, neither field ever being
read. -/
theorem config_noninterference (a b : Config)
    (h : configAgreesExceptRetryAndBatch a b) :
    MAX_RETRIES = 3 ∧
    (∀ (o : ScanOracle) (s : AgentState),
      checkAndProcessPayments a o s = checkAndProcessPayments b o s) ∧
    (∀ (o : SingleOracle) (pid : String) (q : RetryQueue),
      processSinglePayment a o pid q = processSinglePayment b o pid q) ∧
    (∀ (o : BatchOracle) (pids : List String) (q : RetryQueue),
      processBatchPayments a o pids q = processBatchPayments b o pids q) ∧
    (∀ (o : RetryOracle) (q : RetryQueue),
      processRetryQueue a o q = processRetryQueue b o q) ∧
    (∀ o : BalanceOracle, checkBalance a o = checkBalance b o) ∧
    (∀ o : AnalyzeOracle,
      analyzePaymentPatterns a o = analyzePaymentPatterns b o) := by
  obtain ⟨ra, pa, ka, wa, la, ca, ga⟩ := h
  exact ⟨rfl, checkAndProcessPayments_congr a b wa,
    processSinglePayment_congr a b wa, processBatchPayments_congr a b wa,
    processRetryQueue_congr a b wa, checkBalance_congr a b wa la,
    fun o => rfl⟩

/-- C10 witness: cfgNoHook and cfgAlt differ exactly in retryLimit (3
against 99) and batchProcessingThreshold (3 against 42), and a full scan
tick behaves identically under both. -/
theorem config_noninterference_witness :
    checkAndProcessPayments cfgNoHook scanOracle4 ⟨[], false⟩ =
      checkAndProcessPayments cfgAlt scanOracle4 ⟨[], false⟩ ∧
    MAX_RETRIES = 3 :=
  ⟨(config_noninterference cfgNoHook cfgAlt
      ⟨rfl, rfl, rfl, rfl, rfl, rfl, rfl⟩).2.1 scanOracle4 ⟨[], false⟩,
    (config_noninterference cfgNoHook cfgAlt
      ⟨rfl, rfl, rfl, rfl, rfl, rfl, rfl⟩).1⟩

end FluxAgent
